import Mathlib

/-!
Verification of the double-buffered ALSA/DMA streaming pipeline of this
repository against its specification.

The development shallowly embeds the relevant C functions of
`dma_alsa_module.c` (namespace `DmaAlsa`) and `dma_pcm_module.c`
(namespace `DmaPcm`).  Machine integers are modelled as `Nat` with an
explicit `% 2 ^ w` wherever C overflow semantics matter; C functions that
can fail return error codes as in the source; the `while` loops of
`write_to_buffer` are embedded with an explicit fuel argument (returning
`none` when the fuel runs out, which the lemmas show never happens for
the supplied fuel).
-/

set_option autoImplicit false

namespace DmaAlsa

/-- The constant `AUDIO_BUFFER_SIZE = 64 * 1024` (dma_alsa_module.c:12). -/
def AUDIO_BUFFER_SIZE : Nat := 64 * 1024

/--
Sample encoding performed by the inner loop of `write_to_buffer`
(dma_alsa_module.c:156-161) for one 6-byte frame `(l0,l1,l2,r0,r1,r2)`:

    uint32_t left  = (src[0] << 16) | (src[1] << 8) | src[2];
    uint32_t right = (src[3] << 16) | (src[4] << 8) | src[5];
    *dst++ = ((uint64_t)left << 40) | ((uint64_t)right << 16);

`left` and `right` are `uint32_t` and the stored word is `uint64_t`,
hence the reductions modulo `2 ^ 32` and `2 ^ 64`.
-/
def encodeFrame (l0 l1 l2 r0 r1 r2 : Nat) : Nat :=
  let left := ((l0 <<< 16) ||| (l1 <<< 8) ||| l2) % 2 ^ 32
  let right := ((r0 <<< 16) ||| (r1 <<< 8) ||| r2) % 2 ^ 32
  ((left <<< 40) ||| (right <<< 16)) % 2 ^ 64

end DmaAlsa

namespace DmaAlsa

/--
State of the double-buffer pool of `dma_alsa_module.c`.  Buffers are
identified by numbers; `activeBuf`/`nextBuf` model the
`active_dma_buffer`/`next_dma_buffer` pointers (`none` = NULL), `fill`
models the module-global `buffer_fill_level`, `submitted` records, in
order, the buffers handed to `start_dma_transfer`, and `allocTries`
counts the calls to `dma_alloc_coherent` made during swaps (it indexes
the allocation oracle).
-/
structure AlsaPool where
  activeBuf : Option Nat
  nextBuf : Option Nat
  fill : Nat
  submitted : List Nat
  allocTries : Nat
  deriving DecidableEq

/--
Byte offsets (into the active buffer) of the 8-byte word stores made by
the inner encode loop of `write_to_buffer` (dma_alsa_module.c:152-161)
in one outer-loop iteration: `dst` starts at byte offset
`buffer_fill_level`, the loop runs for `i = 0, 6, 12, ...` while
`i < to_copy` (hence `(to_copy + 5) / 6` iterations) and `dst++`
advances 8 bytes per iteration.
-/
def encodeStores (fill toCopy : Nat) : List Nat :=
  (List.range ((toCopy + 5) / 6)).map (fun j => fill + 8 * j)

/--
The `while (size > 5)` loop of `write_to_buffer`
(dma_alsa_module.c:146-197), embedded with fuel.  `alloc` is the oracle
deciding whether the `dma_alloc_coherent` call of the n-th swap
succeeds.  Returns the final pool state and the accumulated list of
store offsets, or `none` if the fuel runs out or a NULL buffer pointer
would be dereferenced (both unreachable from `write_to_buffer` entry,
whose guard requires both buffers).  Buffer contents are not modelled;
the store offsets capture where the encoded words land.
-/
def writeLoop (alloc : Nat → Bool) : Nat → AlsaPool → Nat → List Nat →
    Option (AlsaPool × List Nat)
  | 0, _, _, _ => none
  | fuel + 1, st, size, offs =>
    if 5 < size then
      let space_left := AUDIO_BUFFER_SIZE - st.fill
      let to_copy := min space_left size
      let offs1 := offs ++ encodeStores st.fill to_copy
      let st1 : AlsaPool := { st with fill := st.fill + to_copy }
      let size1 := size - to_copy
      if AUDIO_BUFFER_SIZE ≤ st.fill + to_copy then
        match st.activeBuf, st.nextBuf with
        | some ab, some nb =>
          -- start_dma_transfer(active, ...); active = next;
          if alloc st.allocTries then
            -- next = dma_alloc_coherent(...); buffer_fill_level = 0;
            writeLoop alloc fuel
              { st with submitted := st.submitted ++ [ab], activeBuf := some nb,
                        nextBuf := some (st.allocTries + 2),
                        allocTries := st.allocTries + 1, fill := 0 }
              size1 offs1
          else
            -- allocation failed: unlock and return (fill is NOT reset)
            some ({ st with submitted := st.submitted ++ [ab],
                            activeBuf := some nb, nextBuf := none,
                            allocTries := st.allocTries + 1,
                            fill := st.fill + to_copy },
              offs1)
        | _, _ => none
      else
        writeLoop alloc fuel st1 size1 offs1
    else
      some (st, offs)

/--
`write_to_buffer` (dma_alsa_module.c:132-199).  The entry guard
(line 141) returns without doing anything when either buffer pointer is
NULL.  The fuel `size + 2` always suffices: every loop iteration either
consumes at least one input byte or was entered with a full buffer,
which can happen at most once per call.
-/
def write_to_buffer (alloc : Nat → Bool) (st : AlsaPool) (size : Nat) :
    Option (AlsaPool × List Nat) :=
  match st.activeBuf, st.nextBuf with
  | some _, some _ => writeLoop alloc (size + 2) st size []
  | _, _ => some (st, [])

/-- Pool-state effect of `dma_pcm_prepare` (dma_alsa_module.c:457-489):
fails with -EINVAL when a buffer pointer is NULL or the negotiated
geometry is empty; otherwise resets `buffer_fill_level` to 0 (and
terminates in-flight DMA, outside this model). -/
def dma_pcm_prepare (st : AlsaPool) (bufferSize periodSize : Nat) :
    Int × AlsaPool :=
  if st.activeBuf = none ∨ st.nextBuf = none then (-22, st)
  else if bufferSize = 0 ∨ periodSize = 0 then (-22, st)
  else (0, { st with fill := 0 })

/-- Pool-state effect of `dma_pcm_hw_free` (dma_alsa_module.c:431-454):
fails with -EINVAL when a buffer pointer is NULL; otherwise resets
`buffer_fill_level` to 0. -/
def dma_pcm_hw_free (st : AlsaPool) : Int × AlsaPool :=
  if st.activeBuf = none ∨ st.nextBuf = none then (-22, st)
  else (0, { st with fill := 0 })

/-- Pool-state effect of a successful `dma_pcm_open`
(dma_alsa_module.c:203-250): allocates the two DMA buffers and installs
them as active and next.  `buffer_fill_level` is not touched. -/
def dma_pcm_open (st : AlsaPool) : AlsaPool :=
  { st with activeBuf := some 0, nextBuf := some 1 }

/-- Pool-state effect of `dma_pcm_close` (dma_alsa_module.c:253-281):
releases both buffers (pointers become NULL).  `buffer_fill_level` is
not touched. -/
def dma_pcm_close (st : AlsaPool) : AlsaPool :=
  { st with activeBuf := none, nextBuf := none }

/-- Operations that touch the pool state. -/
inductive PoolOp where
  | write (alloc : Nat → Bool) (size : Nat)
  | prepareOp (bufferSize periodSize : Nat)
  | hwFree
  | openOp
  | closeOp

/-- One pool operation.  `write` propagates the loop's `none`
(unreachable) case. -/
def poolStep (st : AlsaPool) : PoolOp → Option AlsaPool
  | .write alloc size => (write_to_buffer alloc st size).map (·.1)
  | .prepareOp b p => some (dma_pcm_prepare st b p).2
  | .hwFree => some (dma_pcm_hw_free st).2
  | .openOp => some (dma_pcm_open st)
  | .closeOp => some (dma_pcm_close st)

/-- Pool state at module load: NULL buffer pointers,
`buffer_fill_level = 0` (dma_alsa_module.c:17-24). -/
def initPool : AlsaPool :=
  { activeBuf := none, nextBuf := none, fill := 0, submitted := [],
    allocTries := 0 }

/-- Pool states reachable from module load by any sequence of
operations. -/
inductive Reachable : AlsaPool → Prop where
  | init : Reachable initPool
  | step {st : AlsaPool} {op : PoolOp} {st' : AlsaPool} :
      Reachable st → poolStep st op = some st' → Reachable st'

/-- ALSA uapi constant `SNDRV_PCM_STATE_RUNNING`. -/
def SNDRV_PCM_STATE_RUNNING : Nat := 3

/--
Runtime fields read and written by `dma_pcm_ack`:
`runtime->control->appl_ptr`, `runtime->status->hw_ptr` (abstract frame
indices), `runtime->buffer_size` and `runtime->period_size` (frames),
`runtime->status->state`, whether `runtime->dma_area` is non-NULL, and
`runtime->frame_bits` (48 for 24-bit 3-byte stereo).
-/
structure AckRuntime where
  applPtr : Nat
  hwPtr : Nat
  bufferSize : Nat
  periodSize : Nat
  state : Nat
  dmaAreaPresent : Bool
  frameBits : Nat
  deriving DecidableEq

/--
Available-frame computation of `dma_pcm_ack`
(dma_alsa_module.c:307-311), inlined there:

    avail_frames = runtime->control->appl_ptr - runtime->status->hw_ptr;
    if ((ssize_t)avail_frames < 0)
        avail_frames += runtime->buffer_size;

`avail_frames` is a 64-bit `size_t`, so the subtraction wraps modulo
`2 ^ 64`, and the cast to `ssize_t` is negative exactly when the value
is at least `2 ^ 63`.
-/
def avail_frames (applPtr hwPtr bufferSize : Nat) : Nat :=
  let d := (applPtr + 2 ^ 64 - hwPtr) % 2 ^ 64
  if 2 ^ 63 ≤ d then (d + bufferSize) % 2 ^ 64 else d

/--
`dma_pcm_ack` (dma_alsa_module.c:284-335).  Returns the error code, the
updated runtime, the pool state, and whether a period-elapsed
notification was raised.  The call `write_to_buffer()` at line 323 is
commented out in the source, so the pool state is returned untouched:
`size` and `src` are computed (via `frames_to_bytes`) and then unused,
exactly as in the source.
-/
def dma_pcm_ack (rt : AckRuntime) (pool : AlsaPool) :
    Int × AckRuntime × AlsaPool × Bool :=
  if rt.dmaAreaPresent = false ∨ pool.activeBuf = none then
    (-22, rt, pool, false)
  else
    let avail := avail_frames rt.applPtr rt.hwPtr rt.bufferSize
    if avail = 0 then (0, rt, pool, false)
    else
      let _size := avail * rt.frameBits / 8
      let _src := rt.hwPtr * rt.frameBits / 8
      -- write_to_buffer()  (dma_alsa_module.c:323: the call is commented out,
      -- so the computed byte count and ring offset above go unused and the
      -- pool is returned unchanged)
      let rt' := { rt with hwPtr := (rt.hwPtr + avail) % rt.bufferSize }
      let elapsed :=
        decide (rt.state = SNDRV_PCM_STATE_RUNNING) &&
          decide (rt.periodSize ≤ avail)
      (0, rt', pool, elapsed)

/-- ALSA uapi constant `SNDRV_PCM_FORMAT_S24_3LE`. -/
def SNDRV_PCM_FORMAT_S24_3LE : Nat := 32

/-- Hardware bound `period_bytes_min` (dma_alsa_module.c:36). -/
def period_bytes_min : Nat := 4096

/-- Hardware bound `period_bytes_max` (dma_alsa_module.c:37). -/
def period_bytes_max : Nat := 16384

/-- Hardware bound `periods_min` (dma_alsa_module.c:38). -/
def periods_min : Nat := 2

/-- Buffer-size adjustment of `dma_pcm_hw_params`
(dma_alsa_module.c:374-377): a request above `AUDIO_BUFFER_SIZE` is
reduced to `AUDIO_BUFFER_SIZE`. -/
def clampedBufferBytes (b : Nat) : Nat :=
  if AUDIO_BUFFER_SIZE < b then AUDIO_BUFFER_SIZE else b

/-- Period-size adjustment of `dma_pcm_hw_params`
(dma_alsa_module.c:379-384): a request outside
`[period_bytes_min, period_bytes_max]` is replaced by
`period_bytes_min`. -/
def clampedPeriodBytes (p : Nat) : Nat :=
  if p < period_bytes_min ∨ period_bytes_max < p then period_bytes_min else p

/-- Runtime fields written by `dma_pcm_hw_params`
(dma_alsa_module.c:399-403). -/
structure HwRuntime where
  frameBits : Nat
  periodSize : Nat
  bufferSize : Nat
  startThreshold : Nat
  availMin : Nat
  deriving DecidableEq

/--
`dma_pcm_hw_params` (dma_alsa_module.c:338-409).  `mallocOk` is the
oracle for `snd_pcm_lib_malloc_pages`.  Validation of format, rate and
channel count comes first; then the buffer- and period-size
adjustments; then the geometry check against the adjusted values; the
runtime is mutated only after everything (including the allocation)
succeeded.  `snd_pcm_format_physical_width(S24_3LE) = 24`, so
`frame_bits = channels * 24`, and ALSA's `bytes_to_frames` is
`bytes * 8 / frame_bits`.
-/
def dma_pcm_hw_params (mallocOk : Bool) (rt : HwRuntime)
    (format rate channels bufferBytes periodBytes : Nat) : Int × HwRuntime :=
  if format ≠ SNDRV_PCM_FORMAT_S24_3LE then (-22, rt)
  else if rate ≠ 48000 then (-22, rt)
  else if channels ≠ 2 then (-22, rt)
  else
    let requested_buffer_size := clampedBufferBytes bufferBytes
    let requested_period_size := clampedPeriodBytes periodBytes
    if requested_buffer_size < requested_period_size * periods_min then
      (-22, rt)
    else if mallocOk = false then (-12, rt)
    else
      let frame_bits := channels * 24
      let period_size := requested_period_size * 8 / frame_bits
      let buffer_size := requested_buffer_size * 8 / frame_bits
      (0, { frameBits := frame_bits, periodSize := period_size,
            bufferSize := buffer_size, startThreshold := buffer_size / 2,
            availMin := period_size })

/-- The ALSA stream states of the specification's state machine.  The
driver's callbacks receive them only implicitly (via the ALSA core);
`dma_pcm_trigger` reads the state solely for a debug log. -/
inductive StreamState where
  | closed
  | opened
  | configured
  | prepared
  | running
  | paused
  deriving DecidableEq

/-- ALSA uapi constant `SNDRV_PCM_TRIGGER_STOP`. -/
def SNDRV_PCM_TRIGGER_STOP : Int := 0

/-- ALSA uapi constant `SNDRV_PCM_TRIGGER_START`. -/
def SNDRV_PCM_TRIGGER_START : Int := 1

/-- ALSA uapi constant `SNDRV_PCM_TRIGGER_PAUSE_PUSH`. -/
def SNDRV_PCM_TRIGGER_PAUSE_PUSH : Int := 3

/-- ALSA uapi constant `SNDRV_PCM_TRIGGER_PAUSE_RELEASE`. -/
def SNDRV_PCM_TRIGGER_PAUSE_RELEASE : Int := 4

/--
`dma_pcm_trigger` (dma_alsa_module.c:492-529).  The switch accepts
start, stop, pause-push and pause-release (returning 0 after driving
the DMA engine) and rejects every other command with -EINVAL.  The
current stream state is passed in but, as in the source, never
inspected (the source reads it only for a `pr_debug`).
-/
def dma_pcm_trigger (st : StreamState) (cmd : Int) : Int :=
  if cmd = SNDRV_PCM_TRIGGER_START then 0
  else if cmd = SNDRV_PCM_TRIGGER_STOP then 0
  else if cmd = SNDRV_PCM_TRIGGER_PAUSE_PUSH then 0
  else if cmd = SNDRV_PCM_TRIGGER_PAUSE_RELEASE then 0
  else -22

end DmaAlsa

namespace DmaPcm

/-- The constant `AUDIO_BUFFER_SIZE = 64 * 1024` (dma_pcm_module.c:11). -/
def AUDIO_BUFFER_SIZE : Nat := 64 * 1024

/--
State of the double-buffer pool of `dma_pcm_module.c`.  `content` holds
the bytes memcpy'd into the active buffer so far (the buffer's valid
prefix; its length equals `fill` in every state the loop produces),
`fill` models `buffer_fill_level`, `activePresent`/`nextPresent` model
whether `dma_buffer`/`next_dma_buffer` are non-NULL, `submitted`
records the contents of the buffers handed to `start_dma_transfer`, in
order, and `allocTries` indexes the allocation oracle.
-/
structure PcmPool where
  activePresent : Bool
  nextPresent : Bool
  content : List Nat
  fill : Nat
  submitted : List (List Nat)
  allocTries : Nat
  deriving DecidableEq

/--
The `while (size > 0)` loop of `write_to_buffer`
(dma_pcm_module.c:98-138), embedded with fuel over the input byte list.
Each iteration memcpys `to_copy = min(AUDIO_BUFFER_SIZE -
buffer_fill_level, size)` bytes at offset `buffer_fill_level` and, when
the buffer is full, submits it, promotes the spare and allocates a new
one (the promoted buffer starts with no bytes written).  A memcpy
through a NULL active pointer is modelled as `none` (a crash), as is
fuel exhaustion; neither occurs in the runs the theorems consider.
-/
def writeLoop (alloc : Nat → Bool) : Nat → PcmPool → List Nat →
    Option PcmPool
  | 0, _, _ => none
  | fuel + 1, st, data =>
    if 0 < data.length then
      let space_left := AUDIO_BUFFER_SIZE - st.fill
      let to_copy := min space_left data.length
      if to_copy ≠ 0 ∧ st.activePresent = false then none
      else
        let st1 : PcmPool :=
          { st with content := st.content ++ data.take to_copy,
                    fill := st.fill + to_copy }
        let data1 := data.drop to_copy
        if AUDIO_BUFFER_SIZE ≤ st1.fill then
          -- start_dma_transfer(dma_buffer, ...); dma_buffer = next_dma_buffer;
          let st2 : PcmPool :=
            { st1 with submitted := st1.submitted ++ [st1.content],
                       activePresent := st1.nextPresent, content := [] }
          if alloc st2.allocTries then
            writeLoop alloc fuel
              { st2 with nextPresent := true,
                         allocTries := st2.allocTries + 1, fill := 0 }
              data1
          else
            -- allocation failed: unlock and return (fill is NOT reset)
            some { st2 with nextPresent := false,
                            allocTries := st2.allocTries + 1 }
        else
          writeLoop alloc fuel st1 data1
    else
      some st

/-- The function `write_to_buffer` (dma_pcm_module.c:98-138); unlike the variant in
`dma_alsa_module.c` it has no entry guard and consumes the input down
to the last byte.  The fuel `data.length + 2` always suffices. -/
def write_to_buffer (alloc : Nat → Bool) (st : PcmPool) (data : List Nat) :
    Option PcmPool :=
  writeLoop alloc (data.length + 2) st data

/-- A sequence of `write_to_buffer` calls. -/
def runWrites (alloc : Nat → Bool) : PcmPool → List (List Nat) →
    Option PcmPool
  | st, [] => some st
  | st, d :: ds =>
    match write_to_buffer alloc st d with
    | none => none
    | some st' => runWrites alloc st' ds

/-- Total number of input bytes of a sequence of writes. -/
def totalBytes (ws : List (List Nat)) : Nat := (ws.map List.length).sum

/-- Pool state after `dma_pcm_open` succeeded: both buffers allocated,
nothing written, `buffer_fill_level = 0`. -/
def initPool : PcmPool :=
  { activePresent := true, nextPresent := true, content := [], fill := 0,
    submitted := [], allocTries := 0 }

/-- The callback `dma_pcm_trigger` (dma_pcm_module.c:189-203): accepts only start
and stop; every other command gets -EINVAL.  The stream state is never
inspected. -/
def dma_pcm_trigger (st : DmaAlsa.StreamState) (cmd : Int) : Int :=
  if cmd = DmaAlsa.SNDRV_PCM_TRIGGER_START then 0
  else if cmd = DmaAlsa.SNDRV_PCM_TRIGGER_STOP then 0
  else -22

end DmaPcm

/-- Bitwise-or of a shifted value with a value confined below the shift
is plain addition. -/
theorem shiftLeft_lor_eq_add (a b k : Nat) (hb : b < 2 ^ k) :
    (a <<< k) ||| b = a * 2 ^ k + b := by
  rw [Nat.shiftLeft_eq, Nat.mul_comm, ← Nat.mul_add_lt_is_or hb a]

namespace DmaAlsa

/-- For byte-sized inputs the encoded word is the arithmetic placement of
the left 24-bit value at bit 40 and the right 24-bit value at bit 16. -/
theorem encodeFrame_eq (l0 l1 l2 r0 r1 r2 : Nat)
    (h0 : l0 < 256) (h1 : l1 < 256) (h2 : l2 < 256)
    (h3 : r0 < 256) (h4 : r1 < 256) (h5 : r2 < 256) :
    encodeFrame l0 l1 l2 r0 r1 r2 =
      (l0 * 2 ^ 16 + l1 * 2 ^ 8 + l2) * 2 ^ 40 +
      (r0 * 2 ^ 16 + r1 * 2 ^ 8 + r2) * 2 ^ 16 := by
  have inner : ∀ a b c : Nat, a < 256 → b < 256 → c < 256 →
      (a <<< 16) ||| (b <<< 8) ||| c = a * 2 ^ 16 + b * 2 ^ 8 + c := by
    intro a b c ha hb hc
    rw [Nat.lor_assoc]
    have hbs : (b <<< 8) ||| c = b * 2 ^ 8 + c := shiftLeft_lor_eq_add b c 8 (by omega)
    rw [hbs]
    have : b * 2 ^ 8 + c < 2 ^ 16 := by omega
    rw [shiftLeft_lor_eq_add a (b * 2 ^ 8 + c) 16 this]
    omega
  simp only [encodeFrame]
  rw [inner l0 l1 l2 h0 h1 h2, inner r0 r1 r2 h3 h4 h5]
  have hleft : l0 * 2 ^ 16 + l1 * 2 ^ 8 + l2 < 2 ^ 24 := by omega
  have hright : r0 * 2 ^ 16 + r1 * 2 ^ 8 + r2 < 2 ^ 24 := by omega
  have hm1 : (l0 * 2 ^ 16 + l1 * 2 ^ 8 + l2) % 2 ^ 32 =
      l0 * 2 ^ 16 + l1 * 2 ^ 8 + l2 := Nat.mod_eq_of_lt (by omega)
  have hm2 : (r0 * 2 ^ 16 + r1 * 2 ^ 8 + r2) % 2 ^ 32 =
      r0 * 2 ^ 16 + r1 * 2 ^ 8 + r2 := Nat.mod_eq_of_lt (by omega)
  rw [hm1, hm2]
  have hsh : (r0 * 2 ^ 16 + r1 * 2 ^ 8 + r2) <<< 16 =
      (r0 * 2 ^ 16 + r1 * 2 ^ 8 + r2) * 2 ^ 16 := Nat.shiftLeft_eq _ _
  rw [hsh]
  have hr40 : (r0 * 2 ^ 16 + r1 * 2 ^ 8 + r2) * 2 ^ 16 < 2 ^ 40 := by omega
  rw [shiftLeft_lor_eq_add _ _ 40 hr40]
  have hlt : (l0 * 2 ^ 16 + l1 * 2 ^ 8 + l2) * 2 ^ 40 +
      (r0 * 2 ^ 16 + r1 * 2 ^ 8 + r2) * 2 ^ 16 < 2 ^ 64 := by omega
  exact Nat.mod_eq_of_lt hlt

end DmaAlsa

namespace DmaAlsa

/-- Fill-level bookkeeping of the write loop: starting at or below
capacity it stays at or below capacity, and if the spare disappears
during the call (failed swap allocation) the cursor is left exactly at
capacity. -/
theorem writeLoop_fill (alloc : Nat → Bool) (fuel : Nat) :
    ∀ (st : AlsaPool) (size : Nat) (offs : List Nat) (st' : AlsaPool)
      (offs' : List Nat), st.fill ≤ AUDIO_BUFFER_SIZE →
      writeLoop alloc fuel st size offs = some (st', offs') →
      st'.fill ≤ AUDIO_BUFFER_SIZE ∧
      (st.nextBuf ≠ none → st'.nextBuf = none →
        st'.fill = AUDIO_BUFFER_SIZE) := by
  induction fuel with
  | zero => intro st size offs st' offs' _ h; simp [writeLoop] at h
  | succ fuel ih =>
    intro st size offs st' offs' hfill h
    simp only [writeLoop] at h
    split at h
    case isFalse hsz =>
      have h' := Option.some.inj h
      have h1 : st = st' := congrArg Prod.fst h'
      subst h1
      exact ⟨hfill, fun hn hn' => absurd hn' hn⟩
    case isTrue hsz =>
      have hto : min (AUDIO_BUFFER_SIZE - st.fill) size ≤
          AUDIO_BUFFER_SIZE - st.fill := Nat.min_le_left _ _
      split at h
      case isTrue hfull =>
        have hfeq : st.fill + min (AUDIO_BUFFER_SIZE - st.fill) size =
            AUDIO_BUFFER_SIZE := by omega
        split at h
        case h_2 => exact absurd h (by simp)
        case h_1 ab nb hab hnb =>
          split at h
          case isTrue halloc =>
            have := ih _ _ _ _ _ (Nat.zero_le _) h
            exact ⟨this.1, fun _ hnone => this.2 (by simp) hnone⟩
          case isFalse halloc =>
            have h' := Option.some.inj h
            have h1 : _ = st' := congrArg Prod.fst h'
            subst h1
            exact ⟨by simpa using hfeq.le, fun _ _ => by simpa using hfeq⟩
      case isFalse hfull =>
        have hle : st.fill + min (AUDIO_BUFFER_SIZE - st.fill) size ≤
            AUDIO_BUFFER_SIZE := by omega
        have := ih _ _ _ _ _ (by simpa using hle) h
        exact ⟨this.1, fun hn hn' => this.2 (by simpa using hn) hn'⟩

end DmaAlsa

namespace DmaAlsa

/-- The function `write_to_buffer` keeps the fill level at or below capacity: if
the spare buffer disappears during the call the cursor is left exactly
at capacity. -/
theorem write_to_buffer_fill (alloc : Nat → Bool) (st : AlsaPool)
    (size : Nat) (st' : AlsaPool) (offs' : List Nat)
    (hfill : st.fill ≤ AUDIO_BUFFER_SIZE)
    (h : write_to_buffer alloc st size = some (st', offs')) :
    st'.fill ≤ AUDIO_BUFFER_SIZE ∧
    (st.nextBuf ≠ none → st'.nextBuf = none →
      st'.fill = AUDIO_BUFFER_SIZE) := by
  unfold write_to_buffer at h
  split at h
  · exact writeLoop_fill alloc (size + 2) st size [] st' offs' hfill h
  · have h' := Option.some.inj h
    have h1 : st = st' := congrArg Prod.fst h'
    subst h1
    exact ⟨hfill, fun hn hn' => absurd hn' hn⟩

/-- Every pool state reachable from module load keeps
`buffer_fill_level ≤ AUDIO_BUFFER_SIZE`. -/
theorem reachable_fill_le (st : AlsaPool) (h : Reachable st) :
    st.fill ≤ AUDIO_BUFFER_SIZE := by
  induction h with
  | init => exact Nat.zero_le _
  | step _ hstep ih =>
    rename_i st op st' _
    cases op with
    | write alloc size =>
      have hstep' : (write_to_buffer alloc st size).map (·.1) = some st' := hstep
      cases hw : write_to_buffer alloc st size with
      | none => rw [hw] at hstep'; simp at hstep'
      | some p =>
        rw [hw] at hstep'
        have h2 : p.1 = st' := Option.some.inj hstep'
        subst h2
        exact (write_to_buffer_fill alloc st size p.1 p.2 ih hw).1
    | prepareOp b p =>
      have h2 : (dma_pcm_prepare st b p).2 = st' := Option.some.inj hstep
      subst h2
      unfold dma_pcm_prepare
      split
      · exact ih
      · split
        · exact ih
        · exact Nat.zero_le _
    | hwFree =>
      have h2 : (dma_pcm_hw_free st).2 = st' := Option.some.inj hstep
      subst h2
      unfold dma_pcm_hw_free
      split
      · exact ih
      · exact Nat.zero_le _
    | openOp =>
      have h2 : dma_pcm_open st = st' := Option.some.inj hstep
      subst h2
      exact ih
    | closeOp =>
      have h2 : dma_pcm_close st = st' := Option.some.inj hstep
      subst h2
      exact ih

end DmaAlsa

/-- Claim C5: for every 6-byte frame `(l0,l1,l2,r0,r1,r2)` of interleaved
24-bit stereo input, `encodeFrame` (the encoder inlined in
`write_to_buffer`, dma_alsa_module.c:156-161) produces exactly one 64-bit
word with the left channel's 24 bits at bit offset 40 (the highest
occupied bits), the right channel's 24 bits at bit offset 16, and all
remaining (low 16) bits zero; extracting the 24-bit fields and the six
bytes at those offsets recovers exactly the original input bytes. -/
theorem C5_encode_roundtrip (l0 l1 l2 r0 r1 r2 : Nat)
    (h0 : l0 < 256) (h1 : l1 < 256) (h2 : l2 < 256)
    (h3 : r0 < 256) (h4 : r1 < 256) (h5 : r2 < 256) :
    DmaAlsa.encodeFrame l0 l1 l2 r0 r1 r2 < 2 ^ 64 ∧
    (DmaAlsa.encodeFrame l0 l1 l2 r0 r1 r2 >>> 40) % 2 ^ 24 =
      l0 * 2 ^ 16 + l1 * 2 ^ 8 + l2 ∧
    (DmaAlsa.encodeFrame l0 l1 l2 r0 r1 r2 >>> 16) % 2 ^ 24 =
      r0 * 2 ^ 16 + r1 * 2 ^ 8 + r2 ∧
    (DmaAlsa.encodeFrame l0 l1 l2 r0 r1 r2 >>> 56) % 2 ^ 8 = l0 ∧
    (DmaAlsa.encodeFrame l0 l1 l2 r0 r1 r2 >>> 48) % 2 ^ 8 = l1 ∧
    (DmaAlsa.encodeFrame l0 l1 l2 r0 r1 r2 >>> 40) % 2 ^ 8 = l2 ∧
    (DmaAlsa.encodeFrame l0 l1 l2 r0 r1 r2 >>> 32) % 2 ^ 8 = r0 ∧
    (DmaAlsa.encodeFrame l0 l1 l2 r0 r1 r2 >>> 24) % 2 ^ 8 = r1 ∧
    (DmaAlsa.encodeFrame l0 l1 l2 r0 r1 r2 >>> 16) % 2 ^ 8 = r2 ∧
    DmaAlsa.encodeFrame l0 l1 l2 r0 r1 r2 % 2 ^ 16 = 0 := by
  rw [DmaAlsa.encodeFrame_eq l0 l1 l2 r0 r1 r2 h0 h1 h2 h3 h4 h5]
  simp only [Nat.shiftRight_eq_div_pow]
  constructor
  · omega
  refine ⟨by omega, by omega, by omega, by omega, by omega, by omega, by omega, by omega, by omega⟩

/-- Witness for C5 at the concrete frame `(0x12, 0x34, 0x56, 0x78, 0x9A, 0xBC)`. -/
theorem C5_encode_roundtrip_witness :
    (18 : Nat) < 256 ∧ (52 : Nat) < 256 ∧ (86 : Nat) < 256 ∧
    (120 : Nat) < 256 ∧ (154 : Nat) < 256 ∧ (188 : Nat) < 256 ∧
    ((DmaAlsa.encodeFrame 18 52 86 120 154 188 >>> 56) % 2 ^ 8 = 18 ∧
     DmaAlsa.encodeFrame 18 52 86 120 154 188 % 2 ^ 16 = 0) :=
  ⟨by decide, by decide, by decide, by decide, by decide, by decide,
    by
      have h := C5_encode_roundtrip 18 52 86 120 154 188
        (by decide) (by decide) (by decide) (by decide) (by decide) (by decide)
      exact ⟨h.2.2.2.1, h.2.2.2.2.2.2.2.2.2⟩⟩

namespace DmaPcm

/--
Main bookkeeping lemma for the `dma_pcm_module.c` write loop under an
always-succeeding allocator: starting from a consistent pool state the
loop terminates within the fuel, consumes the whole input, leaves the
fill level and swap count given by division by the capacity, preserves
every byte in order across swaps, and submits only completely full
buffers.
-/
theorem writeLoop_ok (fuel : Nat) :
    ∀ (st : PcmPool) (data : List Nat), data.length < fuel →
      st.activePresent = true → st.nextPresent = true →
      st.content.length = st.fill → st.fill < AUDIO_BUFFER_SIZE →
      ∃ st', writeLoop (fun _ => true) fuel st data = some st' ∧
        st'.activePresent = true ∧ st'.nextPresent = true ∧
        st'.content.length = st'.fill ∧ st'.fill < AUDIO_BUFFER_SIZE ∧
        st'.fill = (st.fill + data.length) % AUDIO_BUFFER_SIZE ∧
        st'.submitted.length =
          st.submitted.length + (st.fill + data.length) / AUDIO_BUFFER_SIZE ∧
        st'.submitted.flatten ++ st'.content =
          st.submitted.flatten ++ st.content ++ data ∧
        (∀ b ∈ st'.submitted,
          b ∈ st.submitted ∨ b.length = AUDIO_BUFFER_SIZE) := by
  induction fuel with
  | zero => intro st data h; omega
  | succ fuel ih =>
    intro st data hlen hap hnp hcl hfl
    rw [writeLoop]
    simp only [AUDIO_BUFFER_SIZE] at ih hfl ⊢
    by_cases hd : 0 < data.length
    · rw [if_pos hd]
      have htc : 0 < min (64 * 1024 - st.fill) data.length :=
        lt_min (by omega) hd
      have htclen : min (64 * 1024 - st.fill) data.length ≤ data.length :=
        Nat.min_le_right _ _
      have hguard : ¬(min (64 * 1024 - st.fill) data.length ≠ 0 ∧
          st.activePresent = false) := by
        rw [hap]; simp
      rw [if_neg hguard]
      have hlen1 : (data.drop
          (min (64 * 1024 - st.fill) data.length)).length < fuel := by
        rw [List.length_drop]; omega
      have htake : (data.take (min (64 * 1024 - st.fill) data.length)).length =
          min (64 * 1024 - st.fill) data.length := by
        rw [List.length_take]; omega
      by_cases hfull : 64 * 1024 ≤
          st.fill + min (64 * 1024 - st.fill) data.length
      · rw [if_pos hfull]
        obtain ⟨st', hrun, hap', hnp', hcl', hfl', hfill', hsubs', hflat',
            hlens'⟩ :=
          ih { activePresent := st.nextPresent, nextPresent := true,
               content := [], fill := 0,
               submitted := st.submitted ++
                 [st.content ++
                   data.take (min (64 * 1024 - st.fill) data.length)],
               allocTries := st.allocTries + 1 }
            (data.drop (min (64 * 1024 - st.fill) data.length))
            hlen1 hnp rfl rfl (by dsimp only; omega)
        refine ⟨st', hrun, hap', hnp', hcl', hfl', ?_, ?_, ?_, ?_⟩
        · rw [hfill']
          dsimp only
          rw [List.length_drop]
          omega
        · rw [hsubs']
          dsimp only
          rw [List.length_append, List.length_drop]
          simp only [List.length_cons, List.length_nil]
          omega
        · rw [hflat']
          dsimp only
          simp only [List.flatten_append, List.flatten_cons, List.flatten_nil,
            List.append_nil, List.append_assoc, List.take_append_drop]
        · intro b hb
          rcases hlens' b hb with hmem | hlenb
          · dsimp only at hmem
            rw [List.mem_append] at hmem
            rcases hmem with hmem | hmem
            · exact Or.inl hmem
            · right
              rw [List.mem_singleton] at hmem
              subst hmem
              rw [List.length_append, htake, hcl]
              omega
          · exact Or.inr hlenb
      · rw [if_neg hfull]
        obtain ⟨st', hrun, hap', hnp', hcl', hfl', hfill', hsubs', hflat',
            hlens'⟩ :=
          ih { st with
                content := st.content ++
                  data.take (min (64 * 1024 - st.fill) data.length),
                fill := st.fill + min (64 * 1024 - st.fill) data.length }
            (data.drop (min (64 * 1024 - st.fill) data.length))
            hlen1 hap hnp
            (by dsimp only; rw [List.length_append, htake, hcl])
            (by dsimp only; omega)
        refine ⟨st', hrun, hap', hnp', hcl', hfl', ?_, ?_, ?_, hlens'⟩
        · rw [hfill']
          dsimp only
          rw [List.length_drop]
          omega
        · rw [hsubs']
          dsimp only
          rw [List.length_drop]
          omega
        · rw [hflat']
          dsimp only
          simp only [List.append_assoc, List.take_append_drop]
    · rw [if_neg hd]
      have hdata : data = [] := List.eq_nil_of_length_eq_zero (by omega)
      subst hdata
      exact ⟨st, rfl, hap, hnp, hcl, hfl,
        by simpa using (Nat.mod_eq_of_lt hfl).symm,
        by simp [Nat.div_eq_of_lt hfl], by simp, fun b hb => Or.inl hb⟩

/-- Lifting of `writeLoop_ok` to a whole sequence of `write_to_buffer`
calls. -/
theorem runWrites_ok (ws : List (List Nat)) :
    ∀ (st : PcmPool), st.activePresent = true → st.nextPresent = true →
      st.content.length = st.fill → st.fill < AUDIO_BUFFER_SIZE →
      ∃ st', runWrites (fun _ => true) st ws = some st' ∧
        st'.activePresent = true ∧ st'.nextPresent = true ∧
        st'.content.length = st'.fill ∧ st'.fill < AUDIO_BUFFER_SIZE ∧
        st'.fill = (st.fill + totalBytes ws) % AUDIO_BUFFER_SIZE ∧
        st'.submitted.length =
          st.submitted.length + (st.fill + totalBytes ws) / AUDIO_BUFFER_SIZE ∧
        st'.submitted.flatten ++ st'.content =
          st.submitted.flatten ++ st.content ++ ws.flatten ∧
        (∀ b ∈ st'.submitted,
          b ∈ st.submitted ∨ b.length = AUDIO_BUFFER_SIZE) := by
  induction ws with
  | nil =>
    intro st hap hnp hcl hfl
    refine ⟨st, rfl, hap, hnp, hcl, hfl, ?_, ?_, by simp, fun b hb => Or.inl hb⟩
    · simp [totalBytes, Nat.mod_eq_of_lt hfl]
    · simp [totalBytes, Nat.div_eq_of_lt hfl]
  | cons d ds ih =>
    intro st hap hnp hcl hfl
    obtain ⟨st1, hrun1, hap1, hnp1, hcl1, hfl1, hfill1, hsubs1, hflat1,
        hlens1⟩ := writeLoop_ok (d.length + 2) st d (by omega) hap hnp hcl hfl
    obtain ⟨st', hrun', hap', hnp', hcl', hfl', hfill', hsubs', hflat',
        hlens'⟩ := ih st1 hap1 hnp1 hcl1 hfl1
    refine ⟨st', ?_, hap', hnp', hcl', hfl', ?_, ?_, ?_, ?_⟩
    · simp only [runWrites, write_to_buffer, hrun1, hrun']
    · rw [hfill', hfill1]
      simp only [totalBytes, List.map_cons, List.sum_cons, AUDIO_BUFFER_SIZE]
      omega
    · rw [hsubs', hsubs1, hfill1]
      simp only [totalBytes, List.map_cons, List.sum_cons, AUDIO_BUFFER_SIZE]
      omega
    · rw [hflat', hflat1]
      simp [List.append_assoc]
    · intro b hb
      rcases hlens' b hb with hmem | hlen
      · exact hlens1 b hmem
      · exact Or.inr hlen

end DmaPcm

/-- Claim C3: for every sequence of `write_to_buffer` calls
(dma_pcm_module.c:98-138, the BufferPool.write of the specification)
starting from a freshly opened pool, with buffer allocation succeeding,
the number of buffer swaps performed equals the total number of bytes
written divided by the 64 KiB capacity and the fill cursor ends at the
total modulo the capacity: a swap occurs exactly each time the
cumulative byte count since the last swap reaches the capacity.  In
particular a total of `capacity - 1` bytes performs no swap and a total
of exactly `capacity` bytes performs exactly one. -/
theorem C3_swap_iff_capacity (ws : List (List Nat)) :
    ∃ st', DmaPcm.runWrites (fun _ => true) DmaPcm.initPool ws = some st' ∧
      st'.submitted.length = DmaPcm.totalBytes ws / DmaPcm.AUDIO_BUFFER_SIZE ∧
      st'.fill = DmaPcm.totalBytes ws % DmaPcm.AUDIO_BUFFER_SIZE ∧
      (DmaPcm.totalBytes ws = DmaPcm.AUDIO_BUFFER_SIZE - 1 →
        st'.submitted = []) ∧
      (DmaPcm.totalBytes ws = DmaPcm.AUDIO_BUFFER_SIZE →
        st'.submitted.length = 1) := by
  obtain ⟨st', hrun, _, _, _, _, hfill, hsubs, _, _⟩ :=
    DmaPcm.runWrites_ok ws DmaPcm.initPool rfl rfl rfl (by decide)
  refine ⟨st', hrun, ?_, ?_, ?_, ?_⟩
  · rw [hsubs]; simp [DmaPcm.initPool]
  · rw [hfill]; simp [DmaPcm.initPool]
  · intro htot
    have h0 : st'.submitted.length = 0 := by
      rw [hsubs, htot]; decide
    exact List.eq_nil_of_length_eq_zero h0
  · intro htot
    rw [hsubs, htot]; decide

/-- Claim C4: for every sequence of `write_to_buffer` calls
(dma_pcm_module.c:98-138) from a freshly opened pool whose total input
exceeds the 64 KiB capacity, with allocation succeeding, at least one
buffer is submitted, every submitted buffer is completely full, and the
bytes of the submitted buffers followed by the bytes present in the
active buffer equal, in order, the full input sequence: no byte is
lost, duplicated or reordered across a swap. -/
theorem C4_no_data_loss (ws : List (List Nat))
    (h : DmaPcm.AUDIO_BUFFER_SIZE < DmaPcm.totalBytes ws) :
    ∃ st', DmaPcm.runWrites (fun _ => true) DmaPcm.initPool ws = some st' ∧
      st'.submitted ≠ [] ∧
      (∀ b ∈ st'.submitted, b.length = DmaPcm.AUDIO_BUFFER_SIZE) ∧
      st'.submitted.flatten ++ st'.content = ws.flatten := by
  obtain ⟨st', hrun, _, _, _, _, _, hsubs, hflat, hlens⟩ :=
    DmaPcm.runWrites_ok ws DmaPcm.initPool rfl rfl rfl (by decide)
  refine ⟨st', hrun, ?_, ?_, ?_⟩
  · intro hnil
    rw [hnil] at hsubs
    simp [DmaPcm.initPool] at hsubs
    have h1 : 1 ≤ DmaPcm.totalBytes ws / DmaPcm.AUDIO_BUFFER_SIZE :=
      Nat.one_le_div_iff (by decide) |>.mpr (Nat.le_of_lt h)
    omega
  · intro b hb
    rcases hlens b hb with hmem | hlen
    · simp [DmaPcm.initPool] at hmem
    · exact hlen
  · simpa [DmaPcm.initPool] using hflat

/-- Witness for C4: a single write of 65537 bytes exceeds the capacity. -/
theorem C4_no_data_loss_witness :
    DmaPcm.AUDIO_BUFFER_SIZE < DmaPcm.totalBytes [List.replicate 65537 7] ∧
    (∃ st', DmaPcm.runWrites (fun _ => true) DmaPcm.initPool
        [List.replicate 65537 7] = some st' ∧
      st'.submitted ≠ [] ∧
      (∀ b ∈ st'.submitted, b.length = DmaPcm.AUDIO_BUFFER_SIZE) ∧
      st'.submitted.flatten ++ st'.content =
        [List.replicate 65537 7].flatten) := by
  have h : DmaPcm.AUDIO_BUFFER_SIZE < DmaPcm.totalBytes [List.replicate 65537 7] := by
    simp only [DmaPcm.totalBytes, List.map_cons, List.map_nil, List.sum_cons,
      List.sum_nil, List.length_replicate, DmaPcm.AUDIO_BUFFER_SIZE]
    omega
  exact ⟨h, C4_no_data_loss [List.replicate 65537 7] h⟩

namespace DmaAlsa

/--
One-iteration reduction of the encoding `write_to_buffer` for a call
that fills the buffer exactly and whose swap allocation fails: the full
buffer is submitted, the spare is promoted to active, the spare slot
becomes NULL, and the fill cursor is left at capacity (the reset at
dma_alsa_module.c:193 is skipped by the early return at line 188).
-/
theorem write_to_buffer_swap_alloc_fail (alloc : Nat → Bool) (st : AlsaPool)
    (ab nb : Nat) (size : Nat) (hab : st.activeBuf = some ab)
    (hnb : st.nextBuf = some nb) (hsz : 5 < size)
    (hle : AUDIO_BUFFER_SIZE - st.fill ≤ size)
    (hfill : st.fill < AUDIO_BUFFER_SIZE)
    (halloc : alloc st.allocTries = false) :
    write_to_buffer alloc st size =
      some ({ activeBuf := some nb, nextBuf := none,
              fill := AUDIO_BUFFER_SIZE,
              submitted := st.submitted ++ [ab],
              allocTries := st.allocTries + 1 },
        encodeStores st.fill (AUDIO_BUFFER_SIZE - st.fill)) := by
  have hto : min (AUDIO_BUFFER_SIZE - st.fill) size =
      AUDIO_BUFFER_SIZE - st.fill := Nat.min_eq_left hle
  unfold write_to_buffer
  simp only [hab, hnb]
  rw [writeLoop]
  rw [if_pos hsz]
  simp only [hto, hab, hnb]
  rw [if_pos (show AUDIO_BUFFER_SIZE ≤ st.fill + (AUDIO_BUFFER_SIZE - st.fill)
    from by omega)]
  rw [if_neg (show ¬alloc st.allocTries = true from by simp [halloc])]
  have hf : st.fill + (AUDIO_BUFFER_SIZE - st.fill) = AUDIO_BUFFER_SIZE := by
    omega
  rw [hf]
  simp only [List.nil_append]

/--
One-iteration reduction of the encoding `write_to_buffer` for a call
that fills the buffer exactly and whose swap allocation succeeds: the
full buffer is submitted, the spare is promoted, a fresh spare is
installed and the fill cursor is reset to 0.
-/
theorem write_to_buffer_swap_alloc_ok (alloc : Nat → Bool) (st : AlsaPool)
    (ab nb : Nat) (size : Nat) (hab : st.activeBuf = some ab)
    (hnb : st.nextBuf = some nb) (hsz : 5 < size)
    (heq : st.fill + size = AUDIO_BUFFER_SIZE)
    (halloc : alloc st.allocTries = true) :
    write_to_buffer alloc st size =
      some ({ activeBuf := some nb, nextBuf := some (st.allocTries + 2),
              fill := 0, submitted := st.submitted ++ [ab],
              allocTries := st.allocTries + 1 },
        encodeStores st.fill size) := by
  have hfill : st.fill < AUDIO_BUFFER_SIZE := by
    simp only [AUDIO_BUFFER_SIZE] at heq ⊢; omega
  have hto : min (AUDIO_BUFFER_SIZE - st.fill) size = size := by
    have : AUDIO_BUFFER_SIZE - st.fill = size := by omega
    rw [this]
    exact Nat.min_self size
  unfold write_to_buffer
  simp only [hab, hnb]
  rw [writeLoop]
  rw [if_pos hsz]
  simp only [hto, hab, hnb]
  rw [if_pos (show AUDIO_BUFFER_SIZE ≤ st.fill + size from by omega)]
  rw [if_pos halloc]
  have hz : size - size = 0 := Nat.sub_self size
  rw [hz, writeLoop]
  rw [if_neg (show ¬(5 < 0) from by omega)]
  simp only [List.nil_append]

end DmaAlsa

/-- Claim C1 (code_bug evaluation): `dma_pcm_ack` invoked with 10
available frames (`appl_ptr = 10`, `hw_ptr = 0`, ring of 100 frames,
valid buffers) returns success and advances the hardware pointer to
`(0 + 10) mod 100 = 10`, but leaves the transfer-buffer pool completely
untouched — no bytes are encoded or written, because the
`write_to_buffer()` call at dma_alsa_module.c:323 is commented out.
The claim (and spec §4.4) requires the 60 bytes to be extracted,
encoded and written via `write_to_buffer`. -/
theorem C1_ack_write_omitted :
    DmaAlsa.dma_pcm_ack
        { applPtr := 10, hwPtr := 0, bufferSize := 100, periodSize := 682,
          state := 3, dmaAreaPresent := true, frameBits := 48 }
        { activeBuf := some 0, nextBuf := some 1, fill := 0, submitted := [],
          allocTries := 0 } =
      (0,
        { applPtr := 10, hwPtr := 10, bufferSize := 100, periodSize := 682,
          state := 3, dmaAreaPresent := true, frameBits := 48 },
        { activeBuf := some 0, nextBuf := some 1, fill := 0, submitted := [],
          allocTries := 0 },
        false) ∧
    DmaAlsa.avail_frames 10 0 100 = 10 := by
  exact ⟨by decide, by decide⟩

/-- Claim C2 (code_bug evaluation): from the in-range fill level
`buffer_fill_level = 65532` (at most the 64 KiB capacity), a
`write_to_buffer` call with 6 bytes performs one 8-byte word store at
byte offset 65532, which extends to offset 65540 — past the end of the
64 KiB active buffer.  The encode loop advances `dst` by 8 bytes per 6
input bytes but bounds `to_copy` in input bytes, so stores may land
beyond `AUDIO_BUFFER_SIZE`. -/
theorem C2_store_past_capacity :
    DmaAlsa.write_to_buffer (fun _ => true)
        { activeBuf := some 0, nextBuf := some 1, fill := 65532,
          submitted := [], allocTries := 0 } 6 =
      some ({ activeBuf := some 1, nextBuf := some 2, fill := 0,
              submitted := [0], allocTries := 1 }, [65532]) ∧
    DmaAlsa.AUDIO_BUFFER_SIZE < 65532 + 8 := by
  exact ⟨by decide, by decide⟩

/-- Claim C6: for application and hardware pointers that are frame
indices into a ring of `buffer_size` frames (both below the capacity,
which as a frame count is far below `2 ^ 63`), the available-frame
computation of `dma_pcm_ack` equals `(appl_ptr - hw_ptr) mod
ring_capacity` (written as `(cap + appl - hw) mod cap` in truncated
natural subtraction), always non-negative; and when that count is 0 the
ack callback returns success with the runtime, the pool and the
period-elapsed flag untouched. -/
theorem C6_avail_and_idle (rt : DmaAlsa.AckRuntime) (pool : DmaAlsa.AlsaPool)
    (hap : rt.applPtr < rt.bufferSize) (hhw : rt.hwPtr < rt.bufferSize)
    (hcap : rt.bufferSize < 2 ^ 63) (hdma : rt.dmaAreaPresent = true)
    (hact : pool.activeBuf ≠ none) :
    DmaAlsa.avail_frames rt.applPtr rt.hwPtr rt.bufferSize =
      (rt.bufferSize + rt.applPtr - rt.hwPtr) % rt.bufferSize ∧
    (DmaAlsa.avail_frames rt.applPtr rt.hwPtr rt.bufferSize = 0 →
      DmaAlsa.dma_pcm_ack rt pool = (0, rt, pool, false)) := by
  constructor
  · simp only [DmaAlsa.avail_frames]
    by_cases hcase : rt.hwPtr ≤ rt.applPtr
    · have hd : (rt.applPtr + 2 ^ 64 - rt.hwPtr) % 2 ^ 64 =
          rt.applPtr - rt.hwPtr := by omega
      rw [hd, if_neg (show ¬2 ^ 63 ≤ rt.applPtr - rt.hwPtr from by omega)]
      rw [Nat.mod_eq_sub_mod (by omega)]
      have hs : rt.bufferSize + rt.applPtr - rt.hwPtr - rt.bufferSize =
          rt.applPtr - rt.hwPtr := by omega
      rw [hs, Nat.mod_eq_of_lt (by omega)]
    · have hd : (rt.applPtr + 2 ^ 64 - rt.hwPtr) % 2 ^ 64 =
          2 ^ 64 - (rt.hwPtr - rt.applPtr) := by omega
      rw [hd, if_pos (show 2 ^ 63 ≤ 2 ^ 64 - (rt.hwPtr - rt.applPtr) from by
        omega)]
      have h2 : 2 ^ 64 - (rt.hwPtr - rt.applPtr) + rt.bufferSize =
          2 ^ 64 + (rt.bufferSize + rt.applPtr - rt.hwPtr) := by omega
      rw [h2]
      have h3 : (2 ^ 64 + (rt.bufferSize + rt.applPtr - rt.hwPtr)) % 2 ^ 64 =
          rt.bufferSize + rt.applPtr - rt.hwPtr := by omega
      rw [h3, Nat.mod_eq_of_lt (by omega)]
  · intro h0
    simp [DmaAlsa.dma_pcm_ack, h0, hdma, hact]

/-- Witness for C6 at the ring-wraparound instance of the
specification: `ring_capacity = 100`, `appl_ptr = 10`, `hw_ptr = 90`
gives 20 available frames (not -80). -/
theorem C6_avail_and_idle_witness :
    (10 : Nat) < 100 ∧ (90 : Nat) < 100 ∧ (100 : Nat) < 2 ^ 63 ∧
    DmaAlsa.avail_frames 10 90 100 = 20 :=
  ⟨by norm_num, by norm_num, by norm_num,
    ((C6_avail_and_idle
        { applPtr := 10, hwPtr := 90, bufferSize := 100, periodSize := 682,
          state := 3, dmaAreaPresent := true, frameBits := 48 }
        { activeBuf := some 0, nextBuf := some 1, fill := 0, submitted := [],
          allocTries := 0 }
        (by norm_num) (by norm_num) (by norm_num) rfl (by simp)).1).trans
      (by norm_num)⟩

/-- Claim C7 (counterexample): from the valid pool state with
`buffer_fill_level = 65530` and both buffers present, a 6-byte write
fills the buffer and triggers a swap whose spare allocation fails; the
resulting fill level is 65536, not 0 — the claim's "the fill cursor is
reset to 0" is false on the code (the reset at dma_alsa_module.c:193 is
skipped by the early return at line 188). -/
theorem C7_counterexample :
    DmaAlsa.write_to_buffer (fun _ => false)
        { activeBuf := some 0, nextBuf := some 1, fill := 65530,
          submitted := [], allocTries := 0 } 6 =
      some ({ activeBuf := some 1, nextBuf := none, fill := 65536,
              submitted := [0], allocTries := 1 }, [65530]) ∧
    (65536 : Nat) ≠ 0 := by
  exact ⟨by decide, by decide⟩

/-- Claim C7 (amended): if the spare allocation fails during a swap,
the filled buffer has still been submitted to the transfer engine (so
it is not leaked — its completion callback frees it) and the former
spare is promoted to active, but the fill cursor is NOT reset (it stays
at the 64 KiB capacity) and the spare slot is NULL; every subsequent
`write_to_buffer` call then returns immediately without transferring
anything and without reporting any error (the function returns void and
only logs), until the buffers are reestablished. -/
theorem C7_swap_alloc_failure (alloc : Nat → Bool) (st : DmaAlsa.AlsaPool)
    (ab nb : Nat) (size : Nat) (hab : st.activeBuf = some ab)
    (hnb : st.nextBuf = some nb) (hsz : 5 < size)
    (hle : DmaAlsa.AUDIO_BUFFER_SIZE - st.fill ≤ size)
    (hfill : st.fill < DmaAlsa.AUDIO_BUFFER_SIZE)
    (halloc : alloc st.allocTries = false) :
    DmaAlsa.write_to_buffer alloc st size =
      some ({ activeBuf := some nb, nextBuf := none,
              fill := DmaAlsa.AUDIO_BUFFER_SIZE,
              submitted := st.submitted ++ [ab],
              allocTries := st.allocTries + 1 },
        DmaAlsa.encodeStores st.fill (DmaAlsa.AUDIO_BUFFER_SIZE - st.fill)) ∧
    (∀ (alloc2 : Nat → Bool) (size2 : Nat),
      DmaAlsa.write_to_buffer alloc2
          { activeBuf := some nb, nextBuf := none,
            fill := DmaAlsa.AUDIO_BUFFER_SIZE,
            submitted := st.submitted ++ [ab],
            allocTries := st.allocTries + 1 } size2 =
        some ({ activeBuf := some nb, nextBuf := none,
                fill := DmaAlsa.AUDIO_BUFFER_SIZE,
                submitted := st.submitted ++ [ab],
                allocTries := st.allocTries + 1 }, [])) := by
  constructor
  · exact DmaAlsa.write_to_buffer_swap_alloc_fail alloc st ab nb size hab hnb
      hsz hle hfill halloc
  · intro alloc2 size2
    rfl

/-- Witness for C7 at a concrete input: fill level 65000, a 600-byte
write, allocation failing. -/
theorem C7_swap_alloc_failure_witness :
    (5 : Nat) < 600 ∧
    DmaAlsa.AUDIO_BUFFER_SIZE - 65000 ≤ 600 ∧
    (65000 : Nat) < DmaAlsa.AUDIO_BUFFER_SIZE ∧
    DmaAlsa.write_to_buffer (fun _ => false)
        { activeBuf := some 7, nextBuf := some 8, fill := 65000,
          submitted := [], allocTries := 3 } 600 =
      some ({ activeBuf := some 8, nextBuf := none,
              fill := DmaAlsa.AUDIO_BUFFER_SIZE, submitted := [7],
              allocTries := 4 },
        DmaAlsa.encodeStores 65000 (DmaAlsa.AUDIO_BUFFER_SIZE - 65000)) :=
  ⟨by norm_num, by decide, by decide,
    (C7_swap_alloc_failure (fun _ => false)
        { activeBuf := some 7, nextBuf := some 8, fill := 65000,
          submitted := [], allocTries := 3 } 7 8 600 rfl rfl (by norm_num)
        (by decide) (by decide) rfl).1⟩

/-- Claim C8 (counterexample): the pool state with
`buffer_fill_level = 42` is reachable (open, then a 42-byte write), and
a successful `dma_pcm_prepare` from it resets the fill cursor from 42
to 0 while performing no buffer swap (the submission list stays empty)
— so an operation other than a swap resets the cursor, contrary to the
claim ("reset to 0 exactly when a buffer swap occurs").  `hw_free`
behaves the same (dma_alsa_module.c:447, 482). -/
theorem C8_counterexample :
    DmaAlsa.Reachable
      { activeBuf := some 0, nextBuf := some 1, fill := 42, submitted := [],
        allocTries := 0 } ∧
    (DmaAlsa.dma_pcm_prepare
      { activeBuf := some 0, nextBuf := some 1, fill := 42, submitted := [],
        allocTries := 0 } 10922 682).1 = 0 ∧
    (DmaAlsa.dma_pcm_prepare
      { activeBuf := some 0, nextBuf := some 1, fill := 42, submitted := [],
        allocTries := 0 } 10922 682).2.fill = 0 ∧
    (DmaAlsa.dma_pcm_prepare
      { activeBuf := some 0, nextBuf := some 1, fill := 42, submitted := [],
        allocTries := 0 } 10922 682).2.submitted = [] ∧
    (42 : Nat) ≠ 0 := by
  refine ⟨?_, by decide, by decide, by decide, by decide⟩
  have h1 : DmaAlsa.poolStep DmaAlsa.initPool DmaAlsa.PoolOp.openOp =
      some { activeBuf := some 0, nextBuf := some 1, fill := 0,
             submitted := [], allocTries := 0 } := rfl
  have h2 : DmaAlsa.poolStep
      { activeBuf := some 0, nextBuf := some 1, fill := 0, submitted := [],
        allocTries := 0 } (DmaAlsa.PoolOp.write (fun _ => true) 42) =
      some { activeBuf := some 0, nextBuf := some 1, fill := 42,
             submitted := [], allocTries := 0 } := by decide
  exact DmaAlsa.Reachable.step (DmaAlsa.Reachable.step DmaAlsa.Reachable.init
    h1) h2

/-- Claim C8 (amended): in every reachable pool state the fill cursor
satisfies `0 ≤ buffer_fill_level ≤ AUDIO_BUFFER_SIZE`.  The cursor is
reset to 0 by every swap whose spare allocation succeeds, but not only
by swaps: a successful `dma_pcm_prepare` and a successful
`dma_pcm_hw_free` also reset it (performing no swap), and a swap whose
spare allocation fails does not reset it — it leaves the cursor exactly
at the capacity. -/
theorem C8_fill_cursor (st : DmaAlsa.AlsaPool) (h : DmaAlsa.Reachable st) :
    st.fill ≤ DmaAlsa.AUDIO_BUFFER_SIZE ∧
    (∀ b p, (DmaAlsa.dma_pcm_prepare st b p).1 = 0 →
      (DmaAlsa.dma_pcm_prepare st b p).2.fill = 0) ∧
    (∀ b p, (DmaAlsa.dma_pcm_prepare st b p).2.submitted = st.submitted) ∧
    ((DmaAlsa.dma_pcm_hw_free st).1 = 0 →
      (DmaAlsa.dma_pcm_hw_free st).2.fill = 0) ∧
    (DmaAlsa.dma_pcm_hw_free st).2.submitted = st.submitted ∧
    (∀ (alloc : Nat → Bool) (size : Nat) (st' : DmaAlsa.AlsaPool)
        (offs : List Nat), st.nextBuf ≠ none →
      DmaAlsa.write_to_buffer alloc st size = some (st', offs) →
      st'.nextBuf = none → st'.fill = DmaAlsa.AUDIO_BUFFER_SIZE) ∧
    (∀ (alloc : Nat → Bool) (size ab nb : Nat),
      st.activeBuf = some ab → st.nextBuf = some nb → 5 < size →
      st.fill + size = DmaAlsa.AUDIO_BUFFER_SIZE →
      alloc st.allocTries = true →
      DmaAlsa.write_to_buffer alloc st size =
        some ({ activeBuf := some nb, nextBuf := some (st.allocTries + 2),
                fill := 0, submitted := st.submitted ++ [ab],
                allocTries := st.allocTries + 1 },
          DmaAlsa.encodeStores st.fill size)) := by
  refine ⟨DmaAlsa.reachable_fill_le st h, ?_, ?_, ?_, ?_, ?_, ?_⟩
  · intro b p
    unfold DmaAlsa.dma_pcm_prepare
    split
    · intro hok; simp at hok
    · split
      · intro hok; simp at hok
      · intro _; rfl
  · intro b p
    unfold DmaAlsa.dma_pcm_prepare
    split
    · rfl
    · split
      · rfl
      · rfl
  · unfold DmaAlsa.dma_pcm_hw_free
    split
    · intro hok; simp at hok
    · intro _; rfl
  · unfold DmaAlsa.dma_pcm_hw_free
    split
    · rfl
    · rfl
  · intro alloc size st' offs hn hw hn'
    exact (DmaAlsa.write_to_buffer_fill alloc st size st' offs
      (DmaAlsa.reachable_fill_le st h) hw).2 hn hn'
  · intro alloc size ab nb hab hnb hsz heq halloc
    exact DmaAlsa.write_to_buffer_swap_alloc_ok alloc st ab nb size hab hnb
      hsz heq halloc

/-- Witness for C8 at the reachable initial pool state. -/
theorem C8_fill_cursor_witness :
    DmaAlsa.initPool.fill ≤ DmaAlsa.AUDIO_BUFFER_SIZE :=
  (C8_fill_cursor DmaAlsa.initPool DmaAlsa.Reachable.init).1

/-- Claim C9 (counterexample): with a supported format/rate/channel
request, a requested buffer size of 10000 bytes and a requested period
size of 100000 bytes, the requested buffer size is smaller than the
requested period size times the minimum period count (10000 <
100000 * 2), yet `dma_pcm_hw_params` succeeds: the out-of-range period
request is first replaced by `period_bytes_min = 4096`, and the
geometry check `10000 < 4096 * 2` is performed on the adjusted value
and passes. -/
theorem C9_counterexample :
    (DmaAlsa.dma_pcm_hw_params true
      { frameBits := 0, periodSize := 0, bufferSize := 0,
        startThreshold := 0, availMin := 0 } 32 48000 2 10000 100000).1 = 0 ∧
    (10000 : Nat) < 100000 * DmaAlsa.periods_min := by
  exact ⟨by decide, by decide⟩

/-- Claim C9 (amended): `dma_pcm_hw_params` succeeds exactly when the
format is S24_3LE, the rate is 48000, the channel count is 2, the
buffer size *after clamping* is at least the period size *after
clamping* times the minimum period count, and the ALSA buffer
allocation succeeds; every failure leaves the runtime unchanged; sizes
outside the declared bounds are adjusted rather than rejected (a buffer
request above 64 KiB becomes 64 KiB; a period request outside
[4096, 16384] becomes 4096), and on success the negotiated frame
geometry is derived from the adjusted byte counts. -/
theorem C9_hw_params (mallocOk : Bool) (rt : DmaAlsa.HwRuntime)
    (format rate channels bufferBytes periodBytes : Nat) :
    ((DmaAlsa.dma_pcm_hw_params mallocOk rt format rate channels bufferBytes
        periodBytes).1 = 0 ↔
      format = DmaAlsa.SNDRV_PCM_FORMAT_S24_3LE ∧ rate = 48000 ∧
      channels = 2 ∧
      DmaAlsa.clampedPeriodBytes periodBytes * DmaAlsa.periods_min ≤
        DmaAlsa.clampedBufferBytes bufferBytes ∧ mallocOk = true) ∧
    ((DmaAlsa.dma_pcm_hw_params mallocOk rt format rate channels bufferBytes
        periodBytes).1 ≠ 0 →
      (DmaAlsa.dma_pcm_hw_params mallocOk rt format rate channels bufferBytes
        periodBytes).2 = rt) ∧
    ((DmaAlsa.dma_pcm_hw_params mallocOk rt format rate channels bufferBytes
        periodBytes).1 = 0 →
      (DmaAlsa.dma_pcm_hw_params mallocOk rt format rate channels bufferBytes
          periodBytes).2.bufferSize =
        DmaAlsa.clampedBufferBytes bufferBytes * 8 / 48 ∧
      (DmaAlsa.dma_pcm_hw_params mallocOk rt format rate channels bufferBytes
          periodBytes).2.periodSize =
        DmaAlsa.clampedPeriodBytes periodBytes * 8 / 48) := by
  simp only [DmaAlsa.dma_pcm_hw_params]
  split_ifs with h1 h2 h3 h4 h5
  · refine ⟨iff_of_false (by simp) ?_, fun _ => rfl, fun hc => by simp at hc⟩
    intro hc
    exact h1 hc.1
  · refine ⟨iff_of_false (by simp) ?_, fun _ => rfl, fun hc => by simp at hc⟩
    intro hc
    exact h2 hc.2.1
  · refine ⟨iff_of_false (by simp) ?_, fun _ => rfl, fun hc => by simp at hc⟩
    intro hc
    exact h3 hc.2.2.1
  · refine ⟨iff_of_false (by simp) ?_, fun _ => rfl, fun hc => by simp at hc⟩
    intro hc
    exact absurd hc.2.2.2.1 (Nat.not_le_of_lt h4)
  · refine ⟨iff_of_false (by simp) ?_, fun _ => rfl, fun hc => by simp at hc⟩
    intro hc
    have hm := hc.2.2.2.2
    rw [hm] at h5
    simp at h5
  · have hc2 : channels = 2 := not_not.mp h3
    subst hc2
    refine ⟨iff_of_true rfl ⟨not_not.mp h1, not_not.mp h2, rfl,
      Nat.le_of_not_lt h4, ?_⟩, fun hc => absurd rfl hc, fun _ => ⟨rfl, rfl⟩⟩
    revert h5
    cases mallocOk
    · intro h5; exact absurd rfl h5
    · intro _; rfl

/-- Claim C10 (counterexample): `trigger(start)` issued while the
stream is merely `Configured` (prepare has not run), or even `Closed`,
is accepted with return value 0 by both trigger callbacks — neither
rejects it, because neither inspects the stream state at all. -/
theorem C10_counterexample :
    DmaAlsa.dma_pcm_trigger DmaAlsa.StreamState.configured
      DmaAlsa.SNDRV_PCM_TRIGGER_START = 0 ∧
    DmaAlsa.dma_pcm_trigger DmaAlsa.StreamState.closed
      DmaAlsa.SNDRV_PCM_TRIGGER_START = 0 ∧
    DmaPcm.dma_pcm_trigger DmaAlsa.StreamState.configured
      DmaAlsa.SNDRV_PCM_TRIGGER_START = 0 := by
  exact ⟨by decide, by decide, by decide⟩

/-- Claim C10 (amended): the trigger callbacks perform no state-machine
validation — their result depends only on the command, never on the
stream state, so `trigger(start)` is accepted (returns 0) from every
state, including `Closed` and `Configured`.  The only failures are
unsupported commands, rejected with -EINVAL and no state change:
anything other than start/stop/pause-push/pause-release in
`dma_alsa_module.c`, anything other than start/stop in
`dma_pcm_module.c`.  (State-based rejection of triggers is left to the
ALSA core outside this repository.) -/
theorem C10_trigger (st st' : DmaAlsa.StreamState) (cmd : Int) :
    DmaAlsa.dma_pcm_trigger st cmd = DmaAlsa.dma_pcm_trigger st' cmd ∧
    (DmaAlsa.dma_pcm_trigger st cmd = 0 ↔
      cmd = 0 ∨ cmd = 1 ∨ cmd = 3 ∨ cmd = 4) ∧
    (DmaAlsa.dma_pcm_trigger st cmd ≠ 0 →
      DmaAlsa.dma_pcm_trigger st cmd = -22) ∧
    DmaPcm.dma_pcm_trigger st cmd = DmaPcm.dma_pcm_trigger st' cmd ∧
    (DmaPcm.dma_pcm_trigger st cmd = 0 ↔ cmd = 0 ∨ cmd = 1) ∧
    (DmaPcm.dma_pcm_trigger st cmd ≠ 0 →
      DmaPcm.dma_pcm_trigger st cmd = -22) := by
  unfold DmaAlsa.dma_pcm_trigger DmaPcm.dma_pcm_trigger
  unfold DmaAlsa.SNDRV_PCM_TRIGGER_START DmaAlsa.SNDRV_PCM_TRIGGER_STOP
    DmaAlsa.SNDRV_PCM_TRIGGER_PAUSE_PUSH
    DmaAlsa.SNDRV_PCM_TRIGGER_PAUSE_RELEASE
  split_ifs <;> simp_all
